import Mathlib

/-!
Shallow embedding of the voice-recognition engine (Python sources under
src/) and proofs about its feature-extraction pipeline, GMM model
handling, and the service-level recognition decision logic.

Machine floats are modelled by exact rationals; the external numeric
kernels that the code calls (numpy cos and rfft, the librosa mel
filterbank, the scipy DCT, sklearn scoring) are abstracted as explicit
function parameters, since they live outside the repository.  Python
exceptions are modelled by an explicit error type and Except.
-/

namespace VoiceRec

/-- Python exception classes that the embedded code paths can raise.
The classes FeatureExtractionError and ModelNotReadyError appear in the
specification document only; they are included so that statements about
them can be expressed, but no code path constructs them (no such class
is defined anywhere in the sources). -/
inductive PyErr where
  | indexError
  | valueError
  | zeroDivisionError
  | attributeError
  | featureExtractionError
  | modelNotReadyError
deriving DecidableEq

/-- Decidable equality for Except, used to evaluate concrete pipeline
runs. -/
instance exceptDecEq {ε α : Type} [DecidableEq ε] [DecidableEq α] :
    DecidableEq (Except ε α) := fun a b =>
  match a, b with
  | .ok x, .ok y => if h : x = y then .isTrue (by rw [h]) else .isFalse (by simp [h])
  | .error e, .error f => if h : e = f then .isTrue (by rw [h]) else .isFalse (by simp [h])
  | .ok _, .error _ => .isFalse (by simp)
  | .error _, .ok _ => .isFalse (by simp)

/-- Python int() applied to a float: truncation toward zero (for the
nonnegative values arising here this is the floor).  Note this is not
rounding to nearest. -/
def pyInt (q : ℚ) : ℤ := if 0 ≤ q then ⌊q⌋ else -⌊-q⌋

/-- PreEmphasisFilter.apply_filter (src/feature_extraction/pre_emphasis.py).
emphasized_signal starts as [signal[0]] (an IndexError on an empty input)
and then appends signal[i] - alpha * signal[i-1] for i = 1 .. len-1;
the loop body is rendered as a zipWith of the tail with the list itself. -/
def PreEmphasisFilter.apply_filter (alpha : ℚ) (signal : List ℚ) :
    Except PyErr (List ℚ) :=
  match signal with
  | [] => .error .indexError
  | x :: _ =>
      .ok (x :: List.zipWith (fun cur prev => cur - alpha * prev) signal.tail signal)

/-- Framing parameters (src/feature_extraction/framing.py). -/
structure Framing where
  frame_size : ℚ
  frame_step : ℚ
  sample_rate : ℚ

/-- Framing.frame_signal.  frame_length and frame_step are obtained with
int() (truncation), num_frames is ceil((N - L) / S) + 1 with no clamp:
for short signals it can be zero or negative, in which case the frame
list is empty.  The float division raises ZeroDivisionError when the
step truncates to 0, and np.zeros would reject a negative padding length
(that branch is unreachable, see frame_signal_pad_nonneg below).
Negative start indices cannot arise for the nonnegative parameters used
throughout, so slicing is rendered with drop and take. -/
def Framing.frame_signal (fr : Framing) (signal : List ℚ) :
    Except PyErr (List (List ℚ)) :=
  let frame_length : ℤ := pyInt (fr.frame_size * fr.sample_rate)
  let frame_step : ℤ := pyInt (fr.frame_step * fr.sample_rate)
  if frame_step = 0 then .error .zeroDivisionError
  else
    let signal_length : ℤ := signal.length
    let num_frames : ℤ := ⌈((signal_length - frame_length : ℤ) : ℚ) / (frame_step : ℚ)⌉ + 1
    let pad_signal_length : ℤ := num_frames * frame_step + frame_length
    if pad_signal_length - signal_length < 0 then .error .valueError
    else
      let padded_signal := signal ++ List.replicate (pad_signal_length - signal_length).toNat 0
      .ok ((List.range num_frames.toNat).map (fun i =>
        (padded_signal.drop (i * frame_step.toNat)).take frame_length.toNat))

/-- HammingWindow._compute_hamming_window.  The transcendental factor
np.cos(2 pi n / (L - 1)) is abstracted as cosTerm L n. -/
def HammingWindow.compute_hamming_window (cosTerm : ℕ → ℕ → ℚ) (frame_length : ℕ) :
    List ℚ :=
  (List.range frame_length).map (fun n => 0.54 - 0.46 * cosTerm frame_length n)

/-- HammingWindow.apply: frames * self.hamming_window under numpy
broadcasting.  np.array of an empty frame list has shape (0,), which
broadcasts against the length-L window only when L is at most 1;
otherwise numpy raises a broadcast ValueError.  Nonempty frame matrices
multiply row by row when row length equals window length. -/
def HammingWindow.apply (window : List ℚ) (frames : List (List ℚ)) :
    Except PyErr (List (List ℚ)) :=
  match frames with
  | [] => if window.length ≤ 1 then .ok [] else .error .valueError
  | _ =>
    if frames.all (fun f => f.length = window.length) then
      .ok (frames.map (fun f => List.zipWith (· * ·) f window))
    else .error .valueError

/-- FFTProcessor.compute_fft: np.fft.rfft(frames, n=n_fft) row by row.
The transform of one real row into n_fft / 2 + 1 complex bins is
abstracted as rfftRow (pairs are real and imaginary parts). -/
def FFTProcessor.compute_fft (rfftRow : ℕ → List ℚ → List (ℚ × ℚ))
    (n_fft : ℕ) (frames : List (List ℚ)) : List (List (ℚ × ℚ)) :=
  frames.map (rfftRow n_fft)

/-- FFTProcessor.compute_power_spectrum: np.abs(fft_result) ** 2, which
for a complex entry a + b i is a ^ 2 + b ^ 2 exactly. -/
def FFTProcessor.compute_power_spectrum (fft_result : List (List (ℚ × ℚ))) :
    List (List ℚ) :=
  fft_result.map (fun row => row.map (fun z => z.1 ^ 2 + z.2 ^ 2))

/-- MelScaleFilterbank.apply: np.dot(filterbank, power_spectrum.T).T.
Row i of the result pairs power row i with every filterbank row by dot
product.  np.dot raises ValueError when the inner dimensions disagree. -/
def MelScaleFilterbank.apply (filterbank : List (List ℚ))
    (power_spectrum : List (List ℚ)) : Except PyErr (List (List ℚ)) :=
  let inner := (filterbank.headD []).length
  if power_spectrum.all (fun row => row.length = inner) then
    .ok (power_spectrum.map (fun row =>
      filterbank.map (fun filt => (List.zipWith (· * ·) filt row).sum)))
  else .error .valueError

/-- LogarithmCompression.apply: np.log(mel_spectrum + epsilon)
elementwise, with the irrational logarithm abstracted as logFn. -/
def LogarithmCompression.apply (logFn : ℚ → ℚ) (epsilon : ℚ)
    (mel_spectrum : List (List ℚ)) : List (List ℚ) :=
  mel_spectrum.map (fun row => row.map (fun x => logFn (x + epsilon)))

/-- DCTProcessor.compute_dct: scipy dct(type 2, norm ortho) along each
row (abstracted as the length-preserving dctRow) followed by keeping the
first num_ceps coefficients. -/
def DCTProcessor.compute_dct (dctRow : List ℚ → List ℚ) (num_ceps : ℕ)
    (log_mel_spectrum : List (List ℚ)) : List (List ℚ) :=
  log_mel_spectrum.map (fun row => (dctRow row).take num_ceps)

/-- The numeric kernels external to the repository (numpy, librosa,
scipy) that AudioFeatureExtractor calls, gathered as parameters. -/
structure ExtNumerics where
  cosTerm : ℕ → ℕ → ℚ
  rfftRow : ℕ → List ℚ → List (ℚ × ℚ)
  mel_filterbank : ℚ → ℕ → ℕ → List (List ℚ)
  logFn : ℚ → ℚ
  dctRow : List ℚ → List ℚ

/-- AudioFeatureExtractor configuration
(src/feature_extraction/audio_feature_extractor.py). -/
structure AudioFeatureExtractor where
  sample_rate : ℚ
  frame_size : ℚ
  frame_step : ℚ
  fft_size : ℕ
  num_filters : ℕ
  num_ceps : ℕ

/-- AudioFeatureExtractor.extract_features: the fixed chain
pre-emphasis, framing, windowing, FFT, power spectrum, mel filterbank,
log compression, DCT.  The Hamming window length is
int(frame_size * sample_rate), matching the constructor. -/
def AudioFeatureExtractor.extract_features (cfg : AudioFeatureExtractor)
    (ext : ExtNumerics) (signal : List ℚ) : Except PyErr (List (List ℚ)) := do
  let pre_emphasized_signal ← PreEmphasisFilter.apply_filter 0.97 signal
  let frames ← (Framing.mk cfg.frame_size cfg.frame_step cfg.sample_rate).frame_signal
      pre_emphasized_signal
  let window := HammingWindow.compute_hamming_window ext.cosTerm
      (pyInt (cfg.frame_size * cfg.sample_rate)).toNat
  let windowed_frames ← HammingWindow.apply window frames
  let fft_result := FFTProcessor.compute_fft ext.rfftRow cfg.fft_size windowed_frames
  let power_spectrum := FFTProcessor.compute_power_spectrum fft_result
  let mel_spectrum ← MelScaleFilterbank.apply
      (ext.mel_filterbank cfg.sample_rate cfg.num_filters cfg.fft_size) power_spectrum
  let log_mel_spectrum := LogarithmCompression.apply ext.logFn (1 / 10000000000) mel_spectrum
  .ok (DCTProcessor.compute_dct ext.dctRow cfg.num_ceps log_mel_spectrum)

/-- Container for low-level recognition results
(src/service/speaker_recognition.py, RecognitionComputation).  The float
minus infinity that initialises best_score is the bottom of WithBot. -/
structure RecognitionComputation where
  speaker : Option String
  best_score : WithBot ℚ
  scores : List (String × ℚ)
  rejected : Bool
deriving DecidableEq

/-- The Python expression model_file.split("_gmm_model.pkl")[0]: the
text before the first occurrence of the separator, or the whole text
when the separator does not occur. -/
def firstSegment (sep : List Char) : List Char → List Char
  | [] => []
  | c :: rest => if sep.isPrefixOf (c :: rest) then [] else c :: firstSegment sep rest

/-- Speaker name recovered from a stored model file name, as in
SpeakerRecognition._score_models. -/
def speaker_name_of (model_file : String) : String :=
  String.mk (firstSegment "_gmm_model.pkl".toList model_file.toList)

/-- Loop state of SpeakerRecognition._score_models: the running best
speaker, the running best score (initially float minus infinity) and the
accumulated (speaker, score) pairs. -/
structure ScoreState where
  recognized_speaker : Option String
  best_score : WithBot ℚ
  speaker_scores : List (String × ℚ)
deriving DecidableEq

/-- One iteration of the _score_models loop over a directory entry.
get_file_content returns None for unknown ids, in which case the entry
is skipped (continue); otherwise the model is deserialized and scored,
the pair is appended, and the best score is updated under a strict
comparison.  The deserialized model type and its sklearn scoring
function are abstract. -/
def SpeakerRecognition.score_step {α : Type} (content : String → Option α)
    (score : α → ℚ) (st : ScoreState) (model_file : String) : ScoreState :=
  match content model_file with
  | none => st
  | some m =>
    let s := score m
    let speaker_name := speaker_name_of model_file
    let speaker_scores := st.speaker_scores ++ [(speaker_name, s)]
    if st.best_score < (s : WithBot ℚ) then
      ⟨some speaker_name, (s : WithBot ℚ), speaker_scores⟩
    else
      ⟨st.recognized_speaker, st.best_score, speaker_scores⟩

/-- SpeakerRecognition._score_models.  models_dir is none when
os.path.exists fails on the models directory (early return) and
otherwise carries the os.listdir enumeration in listing order. -/
def SpeakerRecognition.score_models {α : Type} (models_dir : Option (List String))
    (content : String → Option α) (score : α → ℚ) : ScoreState :=
  match models_dir with
  | none => ⟨none, ⊥, []⟩
  | some listing => listing.foldl (SpeakerRecognition.score_step content score) ⟨none, ⊥, []⟩

/-- SpeakerRecognition._evaluate_scores: an empty score list yields the
rejected placeholder outcome; otherwise rejected is exactly
(score_threshold is not None and best_score < score_threshold). -/
def SpeakerRecognition.evaluate_scores {α : Type} (models_dir : Option (List String))
    (content : String → Option α) (score : α → ℚ) (score_threshold : Option ℚ) :
    RecognitionComputation :=
  let st := SpeakerRecognition.score_models models_dir content score
  if st.speaker_scores = [] then
    ⟨none, ⊥, [], true⟩
  else
    let rejected := match score_threshold with
      | none => false
      | some t => st.best_score < (t : WithBot ℚ)
    ⟨st.recognized_speaker, st.best_score, st.speaker_scores, rejected⟩

/-- Service-level recognition result (src/service/api.py,
RecognitionResult). -/
structure RecognitionResult where
  speaker_id : Option String
  score : WithBot ℚ
  scores : List (String × ℚ)
  rejected : Bool
deriving DecidableEq

/-- A Python dict comprehension over an association list: first
occurrence fixes the insertion position, later bindings of the same key
overwrite the value. -/
def pyDict (l : List (String × ℚ)) : List (String × ℚ) :=
  l.foldl (fun acc p =>
    if acc.any (fun q => q.1 = p.1) then
      acc.map (fun q => if q.1 = p.1 then (q.1, p.2) else q)
    else acc ++ [p]) []

/-- VoiceRecognitionService._recognize_signal, conversion half: turn the
optional RecognitionComputation coming from recognize_signal into the
service result.  A missing outcome or an empty score list becomes the
rejected placeholder; otherwise the exposed speaker is nulled when the
outcome was rejected, and the result is rejected when the outcome was
rejected or no internal speaker was selected. -/
def VoiceRecognitionService.recognize_signal_result
    (outcome : Option RecognitionComputation) : RecognitionResult :=
  match outcome with
  | none => ⟨none, ⊥, [], true⟩
  | some oc =>
    if oc.scores = [] then ⟨none, ⊥, [], true⟩
    else
      ⟨if oc.rejected then none else oc.speaker,
       oc.best_score,
       pyDict oc.scores,
       oc.rejected || oc.speaker.isNone⟩

/-- VoiceRecognitionService._recognize_signal, full chain: feature
extraction happens inside SpeakerRecognition.recognize_signal, and any
exception there is caught and surfaces as a missing outcome. -/
def VoiceRecognitionService.recognize_signal {α : Type}
    (featOutcome : Except PyErr (List (List ℚ))) (models_dir : Option (List String))
    (content : String → Option α) (score : List (List ℚ) → α → ℚ)
    (threshold : Option ℚ) : RecognitionResult :=
  match featOutcome with
  | .error _ => VoiceRecognitionService.recognize_signal_result none
  | .ok feats =>
      VoiceRecognitionService.recognize_signal_result
        (some (SpeakerRecognition.evaluate_scores models_dir content (score feats) threshold))

/-- Recognition configuration of the service layer (src/service/api.py). -/
structure RecognitionConfig where
  sample_rate : ℚ
  frame_size : ℚ
  frame_step : ℚ
  fft_size : ℕ
  num_filters : ℕ
  num_ceps : ℕ

/-- The threshold computed in the _BufferingRecognitionSession
constructor: int(sample_rate * frame_size). -/
def RecognitionConfig.min_samples (config : RecognitionConfig) : ℤ :=
  pyInt (config.sample_rate * config.frame_size)

/-- Buffered state of a streaming session: the list of chunks received
so far (src/service/api.py, _BufferingRecognitionSession). -/
structure BufferingRecognitionSession where
  frames : List (List ℚ)
deriving DecidableEq

/-- _BufferingRecognitionSession.consume.  An empty chunk returns None
without touching the buffer; otherwise the chunk is appended, and if
the summed chunk sizes stay below min_samples the call returns None,
else the chunks are concatenated and recognition is re-run over the
whole buffer.  The service recognition call is abstract. -/
def BufferingRecognitionSession.consume
    (recognize : List ℚ → RecognitionResult) (config : RecognitionConfig)
    (sess : BufferingRecognitionSession) (frame : List ℚ) :
    BufferingRecognitionSession × Option RecognitionResult :=
  if frame.length = 0 then (sess, none)
  else
    let frames := sess.frames ++ [frame]
    let total_samples : ℕ := (frames.map List.length).sum
    if (total_samples : ℤ) < config.min_samples then (⟨frames⟩, none)
    else (⟨frames⟩, some (recognize frames.flatten))

/-- Service-level enrollment result (src/service/api.py,
EnrollmentResult). -/
structure EnrollmentResult where
  speaker_id : String
  model_path : String
  metadata_path : String
deriving DecidableEq

/-- The methods defined by the SpeakerEnrollment class that
VoiceRecognitionService imports (src/service/speaker_enrollment.py). -/
def SpeakerEnrollment.methods : List String := ["__init__", "enroll_speaker"]

/-- VoiceRecognitionService._collect_signal: concatenate the chunks of
the audio source, skipping empty arrays, and raise ValueError when
nothing remains. -/
def VoiceRecognitionService.collect_signal (chunks : List (List ℚ)) :
    Except PyErr (List ℚ) :=
  let kept := chunks.filter (fun c => c.length ≠ 0)
  if kept = [] then .error .valueError else .ok kept.flatten

/-- A Python attribute lookup on an object whose class defines the given
method names: missing attributes raise AttributeError. -/
def getattr_call (methods : List String) (name : String) : Except PyErr Unit :=
  if name ∈ methods then .ok () else .error .attributeError

/-- VoiceRecognitionService.enroll: collect the signal, then invoke
enrollment.enroll_from_signal on the SpeakerEnrollment instance.  The
attribute lookup happens before any call, so the would-be method body is
abstracted as a continuation k that receives the collected signal. -/
def VoiceRecognitionService.enroll
    (k : List ℚ → Except PyErr EnrollmentResult) (chunks : List (List ℚ)) :
    Except PyErr EnrollmentResult := do
  let signal ← VoiceRecognitionService.collect_signal chunks
  let _ ← getattr_call SpeakerEnrollment.methods "enroll_from_signal"
  k signal

/-- GMMGaussianModel (src/gmm/gmm_gaussian.py).  The wrapped sklearn
GaussianMixture object is abstract; the model attribute starts as None
in the constructor. -/
structure GMMGaussianModel (α : Type) where
  n_components : ℕ
  covariance_type : String
  max_iter : ℕ
  model : Option α

/-- GMMGaussianModel.__init__: model is None until train or a load. -/
def GMMGaussianModel.init (α : Type) (n_components : ℕ) (covariance_type : String)
    (max_iter : ℕ) : GMMGaussianModel α :=
  ⟨n_components, covariance_type, max_iter, none⟩

/-- GMMGaussianModel.train: fit a fresh sklearn mixture (abstracted as
fit) and store it in the model attribute. -/
def GMMGaussianModel.train {α : Type} (fit : List (List ℚ) → α)
    (g : GMMGaussianModel α) (data : List (List ℚ)) : GMMGaussianModel α :=
  { g with model := some (fit data) }

/-- GMMGaussianModel.deserialize_model: pickle.loads (abstract) into the
model attribute. -/
def GMMGaussianModel.deserialize_model {α β : Type} (loads : β → α)
    (g : GMMGaussianModel α) (serialized_model : β) : GMMGaussianModel α :=
  { g with model := some (loads serialized_model) }

/-- The scoring call sites write gmm_model.model.score(features): when
the model attribute is still None, the attribute lookup on None raises
AttributeError; otherwise the sklearn score (abstract) runs. -/
def GMMGaussianModel.model_score {α : Type} (score : α → List (List ℚ) → ℚ)
    (g : GMMGaussianModel α) (features : List (List ℚ)) : Except PyErr ℚ :=
  match g.model with
  | none => .error .attributeError
  | some m => .ok (score m features)

/-- Trivial instantiation of the external numeric kernels, used to
evaluate the pipeline on concrete inputs; the shape contracts of the
real kernels hold for it. -/
def extZero : ExtNumerics where
  cosTerm := fun _ _ => 0
  rfftRow := fun n _ => List.replicate (n / 2 + 1) (0, 0)
  mel_filterbank := fun _ k m => List.replicate k (List.replicate (m / 2 + 1) 0)
  logFn := fun x => x
  dctRow := fun row => row

/-- A small concrete configuration: 100 Hz sampling, 0.05 s frames
(5 samples), 0.02 s step (2 samples), 8 FFT points, 4 mel filters, 2
cepstral coefficients. -/
def cfgSmall : AudioFeatureExtractor where
  sample_rate := 100
  frame_size := 1/20
  frame_step := 1/50
  fft_size := 8
  num_filters := 4
  num_ceps := 2

/-- The number of frames computed by Framing.frame_signal, as an
integer (it can be zero or negative: there is no clamp). -/
def Framing.num_frames (fr : Framing) (signal : List ℚ) : ℤ :=
  ⌈(((signal.length : ℤ) - pyInt (fr.frame_size * fr.sample_rate) : ℤ) : ℚ) /
    ((pyInt (fr.frame_step * fr.sample_rate) : ℤ) : ℚ)⌉ + 1

/-- The (speaker, score) pairs produced by one pass of the
_score_models loop: entries whose content lookup returns None are
skipped. -/
def SpeakerRecognition.scored_pairs {α : Type} (listing : List String)
    (content : String → Option α) (score : α → ℚ) : List (String × ℚ) :=
  listing.filterMap (fun f => (content f).map (fun m => (speaker_name_of f, score m)))

/-- The running best (speaker, score) selection underlying the
_score_models loop: strict improvement only, so the first entry
attaining the maximum is kept. -/
def selectBest : Option String × WithBot ℚ → List (String × ℚ) → Option String × WithBot ℚ
  | st, [] => st
  | st, (n, s) :: rest =>
      selectBest (if st.2 < (s : WithBot ℚ) then (some n, (s : WithBot ℚ)) else st) rest

/-- Maximum score of a pair list in WithBot (bottom for the empty
list). -/
def maxScore (ps : List (String × ℚ)) : WithBot ℚ :=
  ps.foldr (fun p acc => max (p.2 : WithBot ℚ) acc) ⊥

/-- Helper fact: an integer is at most its rational-division ceiling
scaled back, for a positive divisor. -/
theorem le_ceil_mul (a S : ℤ) (hS : 1 ≤ S) : a ≤ ⌈(a : ℚ) / (S : ℚ)⌉ * S := by
  have hS0 : (0 : ℚ) < (S : ℚ) := by exact_mod_cast lt_of_lt_of_le Int.zero_lt_one hS
  have h1 : (a : ℚ) / (S : ℚ) ≤ (⌈(a : ℚ) / (S : ℚ)⌉ : ℚ) := Int.le_ceil _
  have h2 : (a : ℚ) ≤ (⌈(a : ℚ) / (S : ℚ)⌉ : ℚ) * (S : ℚ) := by
    calc (a : ℚ) = (a : ℚ) / (S : ℚ) * (S : ℚ) := by field_simp
    _ ≤ _ := mul_le_mul_of_nonneg_right h1 (le_of_lt hS0)
  exact_mod_cast h2

/-- Framing.frame_signal succeeds whenever the step is at least one
sample and the frame length is nonnegative, producing num_frames frames
(clamped to zero from below by the empty range) each of the full frame
length. -/
theorem frame_signal_ok (fr : Framing) (signal : List ℚ)
    (hS : 1 ≤ pyInt (fr.frame_step * fr.sample_rate))
    (hL : 0 ≤ pyInt (fr.frame_size * fr.sample_rate)) :
    ∃ frames, fr.frame_signal signal = .ok frames ∧
      frames.length = (fr.num_frames signal).toNat ∧
      ∀ f ∈ frames, f.length = (pyInt (fr.frame_size * fr.sample_rate)).toNat := by
  set L := pyInt (fr.frame_size * fr.sample_rate) with hLdef
  set S := pyInt (fr.frame_step * fr.sample_rate) with hSdef
  set N : ℤ := (signal.length : ℤ) with hNdef
  set nf : ℤ := ⌈((N - L : ℤ) : ℚ) / ((S : ℤ) : ℚ)⌉ + 1 with hnf
  have hSne : ¬ (S = 0) := by omega
  have hkey : N - L + S ≤ nf * S := by
    have := le_ceil_mul (N - L) S hS
    have hexp : nf * S = ⌈((N - L : ℤ) : ℚ) / ((S : ℤ) : ℚ)⌉ * S + S := by
      rw [hnf]; ring
    omega
  have hpad : ¬ (nf * S + L - N < 0) := by omega
  have heq : fr.frame_signal signal = .ok ((List.range nf.toNat).map (fun i =>
      ((signal ++ List.replicate (nf * S + L - N).toNat 0).drop (i * S.toNat)).take L.toNat)) := by
    rw [Framing.frame_signal]
    simp only [← hLdef, ← hSdef, ← hNdef, ← hnf, if_neg hSne, if_neg hpad]
  refine ⟨_, heq, ?_, ?_⟩
  · simp only [Framing.num_frames, ← hLdef, ← hSdef, ← hNdef, ← hnf,
      List.length_map, List.length_range]
  · intro f hf
    simp only [List.mem_map, List.mem_range] at hf
    obtain ⟨i, hi, rfl⟩ := hf
    have hiZ : (i : ℤ) < nf := by omega
    have hlenpad :
        ((signal ++ List.replicate (nf * S + L - N).toNat 0).length : ℤ) = nf * S + L := by
      simp only [List.length_append, List.length_replicate]
      push_cast
      omega
    have hmul : (i : ℤ) * S ≤ (nf - 1) * S :=
      mul_le_mul_of_nonneg_right (by omega) (by omega)
    have hSnn : ((S.toNat : ℕ) : ℤ) = S := Int.toNat_of_nonneg (by omega)
    have hstep : ((i * S.toNat : ℕ) : ℤ) = (i : ℤ) * S := by
      push_cast
      rw [hSnn]
    have hroom : (L.toNat : ℤ) + ((i * S.toNat : ℕ) : ℤ) ≤
        ((signal ++ List.replicate (nf * S + L - N).toNat 0).length : ℤ) := by
      rw [hlenpad, hstep]
      have : (nf - 1) * S = nf * S - S := by ring
      omega
    simp only [List.length_take, List.length_drop]
    omega

/-- Pre-emphasis succeeds on a nonempty signal and preserves its
length. -/
theorem apply_filter_ok (alpha : ℚ) (signal : List ℚ) (h : signal ≠ []) :
    ∃ pre, PreEmphasisFilter.apply_filter alpha signal = .ok pre ∧
      pre.length = signal.length := by
  cases signal with
  | nil => exact absurd rfl h
  | cons x rest =>
    refine ⟨_, rfl, ?_⟩
    simp [List.length_zipWith]

/-- C1 (amended): shape of the full extraction pipeline, under the
shape contracts of the external numeric kernels.  For a nonempty signal
long enough that the unclamped frame count is at least one, the row
count is exactly ceil((N - L) / S) + 1 — where L and S come from int()
truncation, not rounding — and every row has num_ceps entries (num_ceps
at most num_filters, as in every configuration the service constructs).
There is no clamp to one frame: shorter signals error out instead (see
the corresponding counterexample). -/
theorem extract_features_shape (cfg : AudioFeatureExtractor) (ext : ExtNumerics)
    (signal : List ℚ)
    (hRfft : ∀ n row, (ext.rfftRow n row).length = n / 2 + 1)
    (hMelLen : (ext.mel_filterbank cfg.sample_rate cfg.num_filters cfg.fft_size).length =
      cfg.num_filters)
    (hMelRow : ∀ r ∈ ext.mel_filterbank cfg.sample_rate cfg.num_filters cfg.fft_size,
      r.length = cfg.fft_size / 2 + 1)
    (hDct : ∀ row, (ext.dctRow row).length = row.length)
    (hK : 0 < cfg.num_filters) (hCeps : cfg.num_ceps ≤ cfg.num_filters)
    (hL : 0 ≤ pyInt (cfg.frame_size * cfg.sample_rate))
    (hS : 1 ≤ pyInt (cfg.frame_step * cfg.sample_rate))
    (hne : signal ≠ [])
    (hN : pyInt (cfg.frame_size * cfg.sample_rate) - pyInt (cfg.frame_step * cfg.sample_rate)
      < (signal.length : ℤ)) :
    ∃ M, cfg.extract_features ext signal = .ok M ∧
      (M.length : ℤ) =
        ⌈(((signal.length : ℤ) - pyInt (cfg.frame_size * cfg.sample_rate) : ℤ) : ℚ) /
          ((pyInt (cfg.frame_step * cfg.sample_rate) : ℤ) : ℚ)⌉ + 1 ∧
      ∀ row ∈ M, row.length = cfg.num_ceps := by
  obtain ⟨pre, hpre, hprelen⟩ := apply_filter_ok 0.97 signal hne
  set L := pyInt (cfg.frame_size * cfg.sample_rate) with hLdef
  set S := pyInt (cfg.frame_step * cfg.sample_rate) with hSdef
  set fr : Framing := Framing.mk cfg.frame_size cfg.frame_step cfg.sample_rate with hfr
  obtain ⟨frames, hframes, hflen, hrows⟩ := frame_signal_ok fr pre hS hL
  have hSq : (0 : ℚ) < ((S : ℤ) : ℚ) := by exact_mod_cast lt_of_lt_of_le Int.zero_lt_one hS
  have hnf1 : 1 ≤ fr.num_frames pre := by
    rw [Framing.num_frames]
    have hlt : (-1 : ℤ) <
        ⌈(((pre.length : ℤ) - pyInt (fr.frame_size * fr.sample_rate) : ℤ) : ℚ) /
          ((pyInt (fr.frame_step * fr.sample_rate) : ℤ) : ℚ)⌉ := by
      rw [Int.lt_ceil, lt_div_iff₀ hSq]
      have : ((-1 : ℤ) : ℚ) * ((S : ℤ) : ℚ) < (((pre.length : ℤ) - L : ℤ) : ℚ) := by
        exact_mod_cast (by omega : (-1 : ℤ) * S < (pre.length : ℤ) - L)
      exact_mod_cast this
    omega
  have hfne : frames ≠ [] := by
    intro hnil
    rw [hnil] at hflen
    simp only [List.length_nil] at hflen
    omega
  rcases frames with _ | ⟨f0, rest⟩
  · exact absurd rfl hfne
  set window := HammingWindow.compute_hamming_window ext.cosTerm L.toNat with hw
  have hwlen : window.length = L.toNat := by
    simp [hw, HammingWindow.compute_hamming_window]
  have hall : ((f0 :: rest).all (fun f => f.length = window.length)) = true := by
    simp only [List.all_eq_true, decide_eq_true_eq]
    intro f hf
    rw [hwlen]
    exact hrows f hf
  have hwind : HammingWindow.apply window (f0 :: rest) =
      .ok ((f0 :: rest).map (fun f => List.zipWith (· * ·) f window)) := by
    simp [HammingWindow.apply, hall]
  set windowed := (f0 :: rest).map (fun f => List.zipWith (· * ·) f window) with hwinded
  set fb := ext.mel_filterbank cfg.sample_rate cfg.num_filters cfg.fft_size with hfb
  set power := FFTProcessor.compute_power_spectrum
      (FFTProcessor.compute_fft ext.rfftRow cfg.fft_size windowed) with hpow
  have hpowrow : ∀ row ∈ power, row.length = cfg.fft_size / 2 + 1 := by
    intro row hrow
    rw [hpow, FFTProcessor.compute_power_spectrum, FFTProcessor.compute_fft] at hrow
    simp only [List.map_map, List.mem_map] at hrow
    obtain ⟨f, _, rfl⟩ := hrow
    simp [hRfft]
  have hfbne : fb ≠ [] := by
    intro hnil
    rw [hnil] at hMelLen
    simp only [List.length_nil] at hMelLen
    omega
  have hinner : (fb.headD []).length = cfg.fft_size / 2 + 1 := by
    rcases fb with _ | ⟨r, rs⟩
    · exact absurd rfl hfbne
    · exact hMelRow r (List.mem_cons_self r rs)
  have hmelall : (power.all (fun row => row.length = (fb.headD []).length)) = true := by
    simp only [List.all_eq_true, decide_eq_true_eq]
    intro row hrow
    rw [hinner]
    exact hpowrow row hrow
  have hmel : MelScaleFilterbank.apply fb power =
      .ok (power.map (fun row => fb.map (fun filt => (List.zipWith (· * ·) filt row).sum))) := by
    rw [MelScaleFilterbank.apply]
    simp only [hmelall, if_pos]
  set mel := power.map (fun row => fb.map (fun filt => (List.zipWith (· * ·) filt row).sum))
    with hmeldef
  set logmel := LogarithmCompression.apply ext.logFn (1 / 10000000000) mel with hlog
  refine ⟨DCTProcessor.compute_dct ext.dctRow cfg.num_ceps logmel, ?_, ?_, ?_⟩
  · simp only [AudioFeatureExtractor.extract_features, hpre, bind, Except.bind, ← hfr,
      hframes, ← hLdef, ← hw, hwind, ← hfb, ← hpow, hmel, ← hmeldef, ← hlog]
  · have hcount : (DCTProcessor.compute_dct ext.dctRow cfg.num_ceps logmel).length =
        (f0 :: rest).length := by
      simp [DCTProcessor.compute_dct, hlog, LogarithmCompression.apply, hmeldef,
        hpow, FFTProcessor.compute_power_spectrum, FFTProcessor.compute_fft, hwinded]
    rw [hcount, hflen]
    have hnn : (0 : ℤ) ≤ fr.num_frames pre := by omega
    rw [Int.toNat_of_nonneg hnn, Framing.num_frames]
    rw [hprelen]
  · intro row hrow
    simp only [DCTProcessor.compute_dct, List.mem_map] at hrow
    obtain ⟨r, hr, rfl⟩ := hrow
    have hrK : r.length = cfg.num_filters := by
      rw [hlog, LogarithmCompression.apply] at hr
      simp only [List.mem_map] at hr
      obtain ⟨m, hm, rfl⟩ := hr
      rw [hmeldef] at hm
      simp only [List.mem_map] at hm
      obtain ⟨p, _, rfl⟩ := hm
      simp [hMelLen]
    rw [List.length_take, hDct, hrK]
    exact Nat.min_eq_left hCeps

/-- C9 (amended): failure modes of the extraction pipeline.  An empty
signal raises IndexError inside the pre-emphasis filter, and a nonempty
signal so short that the unclamped frame count is not positive reaches
the windowing step with an empty frame array and raises a broadcast
ValueError.  No FeatureExtractionError class exists anywhere in the
code, so neither failure is reported as one. -/
theorem extract_features_failure (cfg : AudioFeatureExtractor) (ext : ExtNumerics)
    (signal : List ℚ)
    (hL : 2 ≤ pyInt (cfg.frame_size * cfg.sample_rate))
    (hS : 1 ≤ pyInt (cfg.frame_step * cfg.sample_rate)) :
    (signal = [] → cfg.extract_features ext signal = .error .indexError) ∧
    (signal ≠ [] →
      (signal.length : ℤ) ≤ pyInt (cfg.frame_size * cfg.sample_rate)
        - pyInt (cfg.frame_step * cfg.sample_rate) →
      cfg.extract_features ext signal = .error .valueError) := by
  constructor
  · intro h
    subst h
    rfl
  · intro hne hshort
    obtain ⟨pre, hpre, hprelen⟩ := apply_filter_ok 0.97 signal hne
    set L := pyInt (cfg.frame_size * cfg.sample_rate) with hLdef
    set S := pyInt (cfg.frame_step * cfg.sample_rate) with hSdef
    set fr : Framing := Framing.mk cfg.frame_size cfg.frame_step cfg.sample_rate with hfr
    obtain ⟨frames, hframes, hflen, hrows⟩ :=
      frame_signal_ok fr pre hS (show (0 : ℤ) ≤ L by omega)
    have hSq : (0 : ℚ) < ((S : ℤ) : ℚ) := by exact_mod_cast lt_of_lt_of_le Int.zero_lt_one hS
    have hnf0 : fr.num_frames pre ≤ 0 := by
      rw [Framing.num_frames]
      have hle : ⌈(((pre.length : ℤ) - pyInt (fr.frame_size * fr.sample_rate) : ℤ) : ℚ) /
          ((pyInt (fr.frame_step * fr.sample_rate) : ℤ) : ℚ)⌉ ≤ (-1 : ℤ) := by
        rw [Int.ceil_le, div_le_iff₀ hSq]
        have : (((pre.length : ℤ) - L : ℤ) : ℚ) ≤ ((-1 : ℤ) : ℚ) * ((S : ℤ) : ℚ) := by
          exact_mod_cast (by omega : (pre.length : ℤ) - L ≤ (-1) * S)
        exact_mod_cast this
      omega
    have hfe : frames = [] := by
      have : frames.length = 0 := by omega
      exact List.length_eq_zero.mp this
    subst hfe
    have hwcond : ¬ ((HammingWindow.compute_hamming_window ext.cosTerm L.toNat).length ≤ 1) := by
      simp only [HammingWindow.compute_hamming_window, List.length_map, List.length_range]
      omega
    have hwerr : HammingWindow.apply
        (HammingWindow.compute_hamming_window ext.cosTerm L.toNat) ([] : List (List ℚ)) =
        .error .valueError := by
      simp [HammingWindow.apply, hwcond]
    simp only [AudioFeatureExtractor.extract_features, hpre, bind, Except.bind, ← hfr,
      hframes, ← hLdef, hwerr]

/-- Unfolding of the _score_models fold: the accumulated pair list is
scored_pairs and the winner fields are computed by selectBest. -/
theorem foldl_score_step_eq {α : Type} (content : String → Option α) (score : α → ℚ)
    (listing : List String) :
    ∀ st : ScoreState,
      listing.foldl (SpeakerRecognition.score_step content score) st =
        ⟨(selectBest (st.recognized_speaker, st.best_score)
            (SpeakerRecognition.scored_pairs listing content score)).1,
         (selectBest (st.recognized_speaker, st.best_score)
            (SpeakerRecognition.scored_pairs listing content score)).2,
         st.speaker_scores ++ SpeakerRecognition.scored_pairs listing content score⟩ := by
  induction listing with
  | nil =>
    intro st
    simp [SpeakerRecognition.scored_pairs, selectBest]
  | cons f rest ih =>
    intro st
    cases hcf : content f with
    | none =>
      simp only [List.foldl_cons, SpeakerRecognition.score_step, hcf,
        SpeakerRecognition.scored_pairs, List.filterMap_cons]
      exact ih st
    | some m =>
      simp only [List.foldl_cons, SpeakerRecognition.score_step, hcf,
        SpeakerRecognition.scored_pairs, List.filterMap_cons, Option.map_some']
      by_cases hlt : st.best_score < ((score m : ℚ) : WithBot ℚ)
      · rw [if_pos hlt]
        rw [ih]
        simp only [selectBest, if_pos hlt, SpeakerRecognition.scored_pairs]
        simp [List.append_assoc]
      · rw [if_neg hlt]
        rw [ih]
        simp only [selectBest, if_neg hlt, SpeakerRecognition.scored_pairs]
        simp [List.append_assoc]

/-- Head unfolding of maxScore. -/
theorem maxScore_cons (n : String) (s : ℚ) (rest : List (String × ℚ)) :
    maxScore ((n, s) :: rest) = max (s : WithBot ℚ) (maxScore rest) := rfl

/-- The second component of selectBest is the running maximum. -/
theorem selectBest_snd (ps : List (String × ℚ)) :
    ∀ st : Option String × WithBot ℚ, (selectBest st ps).2 = max st.2 (maxScore ps) := by
  induction ps with
  | nil =>
    intro st
    simp [selectBest, maxScore]
  | cons p rest ih =>
    intro st
    obtain ⟨n, s⟩ := p
    rw [maxScore_cons]
    simp only [selectBest]
    rw [ih]
    by_cases h : st.2 < (s : WithBot ℚ)
    · rw [if_pos h]
      have hle : st.2 ≤ max (s : WithBot ℚ) (maxScore rest) :=
        le_trans (le_of_lt h) (le_max_left _ _)
      rw [max_eq_right hle]
    · rw [if_neg h]
      rw [← max_assoc, max_eq_left (not_lt.mp h)]

/-- If nothing in the list beats the running best, selectBest keeps the
state unchanged. -/
theorem selectBest_of_le (ps : List (String × ℚ)) :
    ∀ st : Option String × WithBot ℚ, maxScore ps ≤ st.2 → selectBest st ps = st := by
  induction ps with
  | nil =>
    intro st _
    rfl
  | cons p rest ih =>
    intro st hle
    obtain ⟨n, s⟩ := p
    simp only [maxScore, List.foldr_cons, max_le_iff] at hle
    simp only [selectBest, if_neg (not_lt.mpr hle.1)]
    exact ih st hle.2

/-- With a beatable starting best, the winner of selectBest is the first
entry attaining the maximum of the list. -/
theorem selectBest_fst_find (ps : List (String × ℚ)) :
    ∀ (r : Option String) (b : WithBot ℚ), b < maxScore ps →
      (selectBest (r, b) ps).1 =
        (ps.find? (fun p => decide ((p.2 : WithBot ℚ) = maxScore ps))).map Prod.fst := by
  induction ps with
  | nil =>
    intro r b hb
    simp [maxScore] at hb
  | cons q rest ih =>
    intro r b hb
    obtain ⟨n, s⟩ := q
    rcases le_or_lt (maxScore rest) ((s : ℚ) : WithBot ℚ) with hMs | hsM
    · have hms : maxScore ((n, s) :: rest) = (s : WithBot ℚ) := by
        rw [maxScore_cons]
        exact max_eq_left hMs
      rw [hms] at hb ⊢
      have hfind : (((n, s) :: rest).find?
          (fun p => decide ((p.2 : WithBot ℚ) = (s : WithBot ℚ)))) = some (n, s) := by
        rw [List.find?_cons]
        simp
      rw [hfind]
      simp only [selectBest, if_pos hb]
      rw [selectBest_of_le rest _ hMs]
      rfl
    · have hms : maxScore ((n, s) :: rest) = maxScore rest := by
        rw [maxScore_cons]
        exact max_eq_right (le_of_lt hsM)
      rw [hms] at hb ⊢
      have hfind : (((n, s) :: rest).find?
          (fun p => decide ((p.2 : WithBot ℚ) = maxScore rest))) =
          rest.find? (fun p => decide ((p.2 : WithBot ℚ) = maxScore rest)) := by
        rw [List.find?_cons]
        simp [ne_of_lt hsM]
      rw [hfind]
      by_cases hbs : b < (s : WithBot ℚ)
      · simp only [selectBest, if_pos hbs]
        exact ih (some n) (s : WithBot ℚ) hsM
      · simp only [selectBest, if_neg hbs]
        exact ih r b hb

/-- The maximum of a nonempty pair list is above bottom. -/
theorem bot_lt_maxScore (ps : List (String × ℚ)) (h : ps ≠ []) : ⊥ < maxScore ps := by
  cases ps with
  | nil => exact absurd rfl h
  | cons p rest =>
    refine lt_of_lt_of_le (WithBot.bot_lt_coe p.2) ?_
    simp only [maxScore, List.foldr_cons]
    exact le_max_left _ _

/-- C1 counterexample: under the small configuration (frame length 5
samples, step 2, truncated from the configured float products) the
one-sample signal is nonempty and the claimed clamped frame count would
be 1, but extract_features raises a broadcast ValueError instead of
returning any matrix: the code computes ceil((1 - 5) / 2) + 1 = -1
frames and has no clamp, so the frame array is empty and the windowing
multiplication fails. -/
theorem extract_no_clamp_counterexample :
    cfgSmall.extract_features extZero [1] = .error .valueError := by
  with_unfolding_all decide

/-- Witness for the C1 shape theorem: a 7-sample signal under the small
configuration yields ceil((7 - 5) / 2) + 1 = 2 rows of num_ceps = 2
entries each. -/
theorem extract_features_shape_witness :
    ∃ M, cfgSmall.extract_features extZero [0, 0, 0, 0, 0, 0, 0] = .ok M ∧
      (M.length : ℤ) =
        ⌈(((([0, 0, 0, 0, 0, 0, 0] : List ℚ).length : ℤ) -
            pyInt (cfgSmall.frame_size * cfgSmall.sample_rate) : ℤ) : ℚ) /
          ((pyInt (cfgSmall.frame_step * cfgSmall.sample_rate) : ℤ) : ℚ)⌉ + 1 ∧
      ∀ row ∈ M, row.length = cfgSmall.num_ceps :=
  extract_features_shape cfgSmall extZero [0, 0, 0, 0, 0, 0, 0]
    (fun n row => by simp [extZero])
    (by simp [extZero, cfgSmall])
    (by
      intro r hr
      simp only [extZero] at hr
      rw [List.eq_of_mem_replicate hr]
      simp [cfgSmall])
    (fun row => rfl)
    (by decide) (by decide)
    (by with_unfolding_all decide)
    (by with_unfolding_all decide)
    (by decide)
    (by with_unfolding_all decide)

/-- C9 counterexample: extraction on the empty signal fails, but with
IndexError (signal[0] in the pre-emphasis filter), not with the
FeatureExtractionError the specification names — no such class exists
in the code. -/
theorem extract_empty_counterexample :
    cfgSmall.extract_features extZero [] = .error .indexError ∧
    PyErr.indexError ≠ PyErr.featureExtractionError :=
  ⟨rfl, by decide⟩

/-- Witness for the C9 failure theorem: the empty signal raises
IndexError, and a 2-sample signal (at most frame length minus step)
raises the broadcast ValueError. -/
theorem extract_features_failure_witness :
    cfgSmall.extract_features extZero [] = .error .indexError ∧
    cfgSmall.extract_features extZero [0, 0] = .error .valueError :=
  ⟨(extract_features_failure cfgSmall extZero []
      (by with_unfolding_all decide) (by with_unfolding_all decide)).1 rfl,
   (extract_features_failure cfgSmall extZero [0, 0]
      (by with_unfolding_all decide) (by with_unfolding_all decide)).2
      (by decide) (by with_unfolding_all decide)⟩

/-- C10 counterexample: scoring a freshly constructed model (neither
train nor load/deserialize has run) raises AttributeError — the model
attribute is None and None has no score attribute — not the
ModelNotReadyError the specification names; no such class exists in the
code. -/
theorem model_score_counterexample :
    GMMGaussianModel.model_score (fun (_ : Unit) _ => (0 : ℚ))
        (GMMGaussianModel.init Unit 16 "diag" 100) [] = .error .attributeError ∧
    PyErr.attributeError ≠ PyErr.modelNotReadyError :=
  ⟨rfl, by decide⟩

/-- C10 (amended): for every sklearn model type, scoring function,
constructor arguments and feature matrix, calling score through the
model attribute of a freshly initialised GMMGaussianModel fails with
AttributeError, since the model attribute is still None. -/
theorem model_score_unready (α : Type) (score : α → List (List ℚ) → ℚ)
    (n_components : ℕ) (covariance_type : String) (max_iter : ℕ)
    (features : List (List ℚ)) :
    GMMGaussianModel.model_score score
      (GMMGaussianModel.init α n_components covariance_type max_iter) features =
      .error .attributeError := rfl

/-- C2: at the service boundary (_recognize_signal), whenever the
returned result carries rejected = true the exposed speaker_id is none
— even when the internal computation determined a best-scoring
candidate. -/
theorem recognize_rejected_nulls_speaker (outcome : Option RecognitionComputation)
    (h : (VoiceRecognitionService.recognize_signal_result outcome).rejected = true) :
    (VoiceRecognitionService.recognize_signal_result outcome).speaker_id = none := by
  cases outcome with
  | none => rfl
  | some oc =>
    by_cases hsc : oc.scores = []
    · simp [VoiceRecognitionService.recognize_signal_result, hsc]
    · simp only [VoiceRecognitionService.recognize_signal_result, if_neg hsc] at h ⊢
      cases hrej : oc.rejected with
      | true => simp [hrej]
      | false =>
        rw [hrej] at h
        simp only [Bool.false_or] at h
        simp [hrej, Option.isNone_iff_eq_none.mp h]

/-- Witness for C2: a rejected outcome whose internal best candidate is
alice is exposed with a null speaker identity. -/
theorem recognize_rejected_nulls_speaker_witness :
    (VoiceRecognitionService.recognize_signal_result
        (some ⟨some "alice", ((5 : ℚ) : WithBot ℚ), [("alice", (5 : ℚ))], true⟩)).rejected =
      true ∧
    (VoiceRecognitionService.recognize_signal_result
        (some ⟨some "alice", ((5 : ℚ) : WithBot ℚ), [("alice", (5 : ℚ))], true⟩)).speaker_id =
      none :=
  ⟨by with_unfolding_all decide,
   recognize_rejected_nulls_speaker _ (by with_unfolding_all decide)⟩

/-- C3: a recognition call made with an empty enrolled-model
enumeration (missing models directory, or a directory with no entries)
returns speaker none, score bottom (the float minus infinity), an empty
score map and rejected = true, regardless of feature extraction
outcome, stored contents, scoring function and threshold. -/
theorem recognize_no_enrolled {α : Type} (featOutcome : Except PyErr (List (List ℚ)))
    (models_dir : Option (List String)) (content : String → Option α)
    (score : List (List ℚ) → α → ℚ) (threshold : Option ℚ)
    (h : models_dir = none ∨ models_dir = some []) :
    VoiceRecognitionService.recognize_signal featOutcome models_dir content score threshold =
      ⟨none, ⊥, [], true⟩ := by
  have hsm : ∀ sc : α → ℚ,
      SpeakerRecognition.score_models models_dir content sc = ⟨none, ⊥, []⟩ := by
    intro sc
    rcases h with h | h <;> subst h <;> rfl
  cases featOutcome with
  | error e => rfl
  | ok feats =>
    show VoiceRecognitionService.recognize_signal_result
        (some (SpeakerRecognition.evaluate_scores models_dir content (score feats) threshold)) = _
    simp [SpeakerRecognition.evaluate_scores, hsm,
      VoiceRecognitionService.recognize_signal_result]

/-- Witness for C3: the empty listing with no stored content yields the
rejected placeholder result. -/
theorem recognize_no_enrolled_witness :
    VoiceRecognitionService.recognize_signal (.ok []) (some [])
      (fun _ => (none : Option Unit)) (fun _ _ => 0) none = ⟨none, ⊥, [], true⟩ :=
  recognize_no_enrolled _ _ _ _ _ (Or.inr rfl)

/-- C4 counterexample: a session already holding 5 buffered samples,
with min_samples = int(100 * 0.05) = 5, receives an empty chunk.  The
total buffered sample count after appending is 5, which is not below
the threshold, so the claim requires a recognition outcome; the code
returns early with none instead (empty chunks are dropped before the
threshold test). -/
theorem consume_empty_frame_counterexample :
    (BufferingRecognitionSession.consume (fun _ => ⟨none, ⊥, [], true⟩)
        ⟨100, 1/20, 1/50, 8, 4, 2⟩ ⟨[[0, 0, 0, 0, 0]]⟩ []).2 = none ∧
    ¬ (((((([[0, 0, 0, 0, 0]] : List (List ℚ)) ++ [[]]).map List.length).sum : ℕ) : ℤ) <
        RecognitionConfig.min_samples ⟨100, 1/20, 1/50, 8, 4, 2⟩) :=
  ⟨rfl, by with_unfolding_all decide⟩

/-- C4 (amended): for every nonempty chunk, consume appends the chunk
to the buffer and returns nothing exactly when the total buffered
sample count stays below int(sample_rate * frame_size); otherwise it
returns the outcome of re-running the recognition engine over the
concatenation of all buffered chunks.  An empty chunk is discarded
before the threshold test and always yields nothing. -/
theorem consume_spec (recognize : List ℚ → RecognitionResult)
    (config : RecognitionConfig) (sess : BufferingRecognitionSession)
    (frame : List ℚ) (h : frame ≠ []) :
    BufferingRecognitionSession.consume recognize config sess frame =
      (⟨sess.frames ++ [frame]⟩,
       if (((sess.frames ++ [frame]).flatten.length : ℕ) : ℤ) < config.min_samples then none
       else some (recognize (sess.frames ++ [frame]).flatten)) := by
  simp only [BufferingRecognitionSession.consume]
  rw [if_neg (fun hc => h (List.length_eq_zero.mp hc))]
  rw [List.length_flatten]
  split <;> rfl

/-- Witness for the C4 theorem: a first 2-sample chunk is appended and,
2 being below the 5-sample threshold, nothing is returned. -/
theorem consume_spec_witness :
    BufferingRecognitionSession.consume (fun _ => ⟨none, ⊥, [], true⟩)
        ⟨100, 1/20, 1/50, 8, 4, 2⟩ ⟨[]⟩ [0, 0] =
      (⟨([] : List (List ℚ)) ++ [[0, 0]]⟩,
       if (((((([] : List (List ℚ)) ++ [[0, 0]]).flatten.length : ℕ) : ℤ)) <
           RecognitionConfig.min_samples ⟨100, 1/20, 1/50, 8, 4, 2⟩) then none
       else some ((fun _ => ⟨none, ⊥, [], true⟩ : List ℚ → RecognitionResult)
         (([] : List (List ℚ)) ++ [[0, 0]]).flatten)) :=
  consume_spec _ _ _ _ (by decide)

/-- C5 counterexample: an enrollment request whose audio source yields
no samples fails in _collect_signal with ValueError, before the missing
enroll_from_signal method is ever looked up — so not every enrollment
request raises AttributeError. -/
theorem enroll_empty_source_counterexample :
    VoiceRecognitionService.enroll (fun _ => .ok ⟨"s", "m", "p"⟩) [] = .error .valueError ∧
    PyErr.valueError ≠ PyErr.attributeError :=
  ⟨rfl, by decide⟩

/-- C5 (amended): enroll never returns an EnrollmentResult.  When the
audio source yields no nonempty chunk, _collect_signal raises
ValueError; otherwise the attribute lookup of enroll_from_signal on the
SpeakerEnrollment instance — a class defining only __init__ and
enroll_speaker — raises AttributeError, whatever the would-be method
body k would have computed. -/
theorem enroll_always_fails (k : List ℚ → Except PyErr EnrollmentResult)
    (chunks : List (List ℚ)) :
    VoiceRecognitionService.enroll k chunks =
      .error (if chunks.filter (fun c => c.length ≠ 0) = [] then PyErr.valueError
              else PyErr.attributeError) := by
  by_cases h : chunks.filter (fun c => c.length ≠ 0) = []
  · have hcs : VoiceRecognitionService.collect_signal chunks = .error .valueError := by
      show (if chunks.filter (fun c => c.length ≠ 0) = []
            then (Except.error PyErr.valueError)
            else Except.ok (chunks.filter (fun c => c.length ≠ 0)).flatten) =
        Except.error PyErr.valueError
      rw [if_pos h]
    rw [if_pos h]
    simp only [VoiceRecognitionService.enroll, hcs, bind, Except.bind]
  · have hcs : VoiceRecognitionService.collect_signal chunks =
        .ok (chunks.filter (fun c => c.length ≠ 0)).flatten := by
      show (if chunks.filter (fun c => c.length ≠ 0) = []
            then (Except.error PyErr.valueError)
            else Except.ok (chunks.filter (fun c => c.length ≠ 0)).flatten) = _
      rw [if_neg h]
    rw [if_neg h]
    simp only [VoiceRecognitionService.enroll, hcs, bind, Except.bind]
    rw [getattr_call, if_neg (by decide)]

/-- C6 counterexample: two enrolled speakers tie at score 5; the
directory enumeration lists bob before alice, and _score_models selects
bob — the first in enumeration order — although alice is the
lexicographically smaller speaker id, so the tie is not broken by the
fixed lexicographic ordering the claim requires. -/
theorem score_models_tie_counterexample :
    (SpeakerRecognition.score_models (some ["bob_gmm_model.pkl", "alice_gmm_model.pkl"])
        (fun _ : String => some ()) (fun _ : Unit => (5 : ℚ))) =
      ⟨some "bob", ((5 : ℚ) : WithBot ℚ), [("bob", 5), ("alice", 5)]⟩ ∧
    ("alice" : String) < "bob" := by
  constructor
  · with_unfolding_all decide
  · with_unfolding_all decide

/-- C6 (amended): with at least one scored model, _score_models reports
as best score the maximum of all collected scores, and as winner the
first speaker in directory-enumeration order attaining that maximum
(the strict comparison never replaces an earlier equal score): ties are
broken by enumeration order, not by a fixed lexicographic ordering. -/
theorem score_models_max_first {α : Type} (listing : List String)
    (content : String → Option α) (score : α → ℚ)
    (h : SpeakerRecognition.scored_pairs listing content score ≠ []) :
    (SpeakerRecognition.score_models (some listing) content score).best_score =
      maxScore (SpeakerRecognition.score_models (some listing) content score).speaker_scores ∧
    (SpeakerRecognition.score_models (some listing) content score).recognized_speaker =
      ((SpeakerRecognition.score_models (some listing) content score).speaker_scores.find?
        (fun p => decide ((p.2 : WithBot ℚ) =
          maxScore (SpeakerRecognition.score_models
            (some listing) content score).speaker_scores))).map Prod.fst := by
  have hsm : SpeakerRecognition.score_models (some listing) content score =
      ⟨(selectBest (none, ⊥) (SpeakerRecognition.scored_pairs listing content score)).1,
       (selectBest (none, ⊥) (SpeakerRecognition.scored_pairs listing content score)).2,
       SpeakerRecognition.scored_pairs listing content score⟩ := by
    show listing.foldl (SpeakerRecognition.score_step content score) ⟨none, ⊥, []⟩ = _
    rw [foldl_score_step_eq]
    simp
  rw [hsm]
  constructor
  · show (selectBest (none, ⊥) _).2 = maxScore _
    rw [selectBest_snd]
    exact max_eq_right bot_le
  · show (selectBest (none, ⊥) _).1 = _
    exact selectBest_fst_find _ none ⊥ (bot_lt_maxScore _ h)

/-- Witness for the C6 theorem: two stored models scoring 5 and 7; the
best score is the maximum 7, and the winner is the first (only) entry
attaining it. -/
theorem score_models_max_first_witness :
    (SpeakerRecognition.score_models (some ["b_gmm_model.pkl", "a_gmm_model.pkl"])
        (fun f : String => if f = "b_gmm_model.pkl" then some (5 : ℚ) else some (7 : ℚ))
        (fun q : ℚ => q)).best_score =
      maxScore (SpeakerRecognition.score_models (some ["b_gmm_model.pkl", "a_gmm_model.pkl"])
        (fun f : String => if f = "b_gmm_model.pkl" then some (5 : ℚ) else some (7 : ℚ))
        (fun q : ℚ => q)).speaker_scores ∧
    (SpeakerRecognition.score_models (some ["b_gmm_model.pkl", "a_gmm_model.pkl"])
        (fun f : String => if f = "b_gmm_model.pkl" then some (5 : ℚ) else some (7 : ℚ))
        (fun q : ℚ => q)).recognized_speaker =
      ((SpeakerRecognition.score_models (some ["b_gmm_model.pkl", "a_gmm_model.pkl"])
        (fun f : String => if f = "b_gmm_model.pkl" then some (5 : ℚ) else some (7 : ℚ))
        (fun q : ℚ => q)).speaker_scores.find?
        (fun p => decide ((p.2 : WithBot ℚ) =
          maxScore (SpeakerRecognition.score_models
            (some ["b_gmm_model.pkl", "a_gmm_model.pkl"])
            (fun f : String => if f = "b_gmm_model.pkl" then some (5 : ℚ) else some (7 : ℚ))
            (fun q : ℚ => q)).speaker_scores))).map Prod.fst :=
  score_models_max_first _ _ _ (by with_unfolding_all decide)

/-- C7: the rejected flag computed by _evaluate_scores is true exactly
when no speaker scored, or a threshold was supplied and the best score
is strictly below it. -/
theorem evaluate_scores_rejected_iff {α : Type} (models_dir : Option (List String))
    (content : String → Option α) (score : α → ℚ) (threshold : Option ℚ) :
    (SpeakerRecognition.evaluate_scores models_dir content score threshold).rejected = true ↔
      ((SpeakerRecognition.score_models models_dir content score).speaker_scores = [] ∨
       ∃ t, threshold = some t ∧
         (SpeakerRecognition.score_models models_dir content score).best_score <
           (t : WithBot ℚ)) := by
  by_cases hsc : (SpeakerRecognition.score_models models_dir content score).speaker_scores = []
  · simp [SpeakerRecognition.evaluate_scores, hsc]
  · cases threshold with
    | none => simp [SpeakerRecognition.evaluate_scores, hsc]
    | some t => simp [SpeakerRecognition.evaluate_scores, hsc]

end VoiceRec
